import Mathlib

/-!
Shallow embedding of the CFGParser repository (files `cfgParser.py` and
`cfg_parser_base_.py`).  Both Python files define a class `CFG` holding a
variable set, a terminal set, a production map (dict from head variable to the
list of bodies, in declaration order) and a start symbol.  Python sets are
modelled as lists used only through membership; the dict is modelled as an
association list preserving insertion order; Python strings are Lean `String`s
and the `'epsilon'` sentinel stays the literal string `"epsilon"`.
Potentially nonterminating recursions and loops take an explicit fuel
parameter, with `none` standing for a computation that did not finish
(nontermination or an uncaught Python exception).
-/

/-- Character class of `^[A-Z]$` in `validate_variable`. -/
def isUpperAZ (c : Char) : Bool :=
  decide (65 ≤ c.toNat) && decide (c.toNat ≤ 90)

/-- Character class `[a-z]`. -/
def isLowerAZ (c : Char) : Bool :=
  decide (97 ≤ c.toNat) && decide (c.toNat ≤ 122)

/-- Character class `[0-9]`. -/
def isDigit09 (c : Char) : Bool :=
  decide (48 ≤ c.toNat) && decide (c.toNat ≤ 57)

/-- The punctuation characters allowed for terminals by `cfgParser.py`'s
`validate_terminal` regex. -/
def terminalSpecialChars : List Char :=
  ['+', '-', '*', '/', '(', ')', '\x7b', '\x7d', '[', ']', ':', ';', '.', ',', '>', '<', '=', '!']

/-- The in-memory grammar of class `CFG` (`cfgParser.py` lines 7-12,
`cfg_parser_base_.py` lines 4-10). -/
structure CFG where
  vars : List String  -- Python attribute `variables` (a reserved word in Lean)
  terminals : List String
  productions : List (String × List (List String))
  start_symbol : Option String
deriving DecidableEq

namespace CFG

/-- `CFG.__init__`: the fresh, empty model. -/
def init : CFG := { vars := [], terminals := [], productions := [], start_symbol := none }

/-- `validate_variable` of `cfgParser.py` (line 14): a single uppercase letter. -/
def validate_variable (var : String) : Bool :=
  match var.toList with
  | [c] => isUpperAZ c
  | _ => false

/-- `validate_terminal` of `cfgParser.py` (line 17): a single character from
`[a-z0-9]` or the fixed punctuation set.  (`cfg_parser_base_.py` uses the same
check restricted to `[a-z0-9]`; no claim depends on the difference.) -/
def validate_terminal (term : String) : Bool :=
  match term.toList with
  | [c] => isLowerAZ c || isDigit09 c || terminalSpecialChars.contains c
  | _ => false

/-- `validate_production` of `cfgParser.py` (lines 21-27): the head must match
the variable class, and every body symbol is the `'epsilon'` sentinel or
matches the variable or terminal character class.  (No declaredness check.) -/
def validate_production (head : String) (body : List String) : Bool :=
  validate_variable head &&
    body.all (fun symbol =>
      symbol == "epsilon" || validate_variable symbol || validate_terminal symbol)

/-- Python `self.productions.get(sym, [])`. -/
def prodsOf (g : CFG) (sym : String) : List (List String) :=
  (g.productions.lookup sym).getD []

/-- Python `set.add` on the modelled list: membership-preserving insert. -/
def setAdd (l : List String) (x : String) : List String :=
  if l.contains x then l else l ++ [x]

/-- `if key not in dict: dict[key] = []` on the association list. -/
def ensureKey (ps : List (String × List (List String))) (k : String) :
    List (String × List (List String)) :=
  if (ps.lookup k).isSome then ps else ps ++ [(k, [])]

/-- `dict[key].append(body)` on the association list. -/
def appendBody (ps : List (String × List (List String))) (k : String) (body : List String) :
    List (String × List (List String)) :=
  ps.map (fun kv => if kv.fst == k then (kv.fst, kv.snd ++ [body]) else kv)

/-- `add_variable` of `cfgParser.py` (lines 29-35): on a valid name, add it to
the variable set and install an empty production list if absent. -/
def add_variable (g : CFG) (var : String) : CFG × Bool :=
  if validate_variable var then
    ({ g with vars := setAdd g.vars var,
              productions := ensureKey g.productions var }, true)
  else (g, false)

/-- `add_terminal` of `cfgParser.py` (lines 37-41). -/
def add_terminal (g : CFG) (term : String) : CFG × Bool :=
  if validate_terminal term then
    ({ g with terminals := setAdd g.terminals term }, true)
  else (g, false)

/-- `add_production` of `cfgParser.py` (lines 43-49). -/
def add_production (g : CFG) (head : String) (body : List String) : CFG × Bool :=
  if validate_production head body then
    ({ g with productions := appendBody (ensureKey g.productions head) head body }, true)
  else (g, false)

/-- `set_start_symbol` of `cfgParser.py` (lines 51-55). -/
def set_start_symbol (g : CFG) (symbol : String) : CFG × Bool :=
  if validate_variable symbol && g.vars.contains symbol then
    ({ g with start_symbol := some symbol }, true)
  else (g, false)

end CFG

/-- One call a loader can make against the model (the four mutators of the
`CFG` class). -/
inductive GOp where
  | addVar (v : String)
  | addTerm (t : String)
  | addProd (head : String) (body : List String)
  | setStart (s : String)
deriving DecidableEq

/-- Apply one mutator call, keeping the updated model (the returned Bool is
the accepted/rejected signal the loader sees). -/
def applyOp (g : CFG) : GOp → CFG
  | .addVar v => (g.add_variable v).fst
  | .addTerm t => (g.add_terminal t).fst
  | .addProd h b => (g.add_production h b).fst
  | .setStart s => (g.set_start_symbol s).fst

/-- The model reached from a fresh `CFG()` after a sequence of mutator calls. -/
def runOps (ops : List GOp) : CFG := ops.foldl applyOp CFG.init

/-- The two expansion disciplines accepted by `get_derivation_steps`
(`strategy='left'` / `strategy='right'`). -/
inductive Strategy where
  | left
  | right
deriving DecidableEq

namespace CFG

/-- The hard-coded detection of the `S -> a S b | epsilon` grammar shape
(`cfgParser.py` lines 180-188, repeated at 286-292 and 395-401). -/
def is_anbn (g : CFG) : Bool :=
  g.start_symbol == some "S" &&
  (prodsOf g "S").length == 2 &&
  (prodsOf g "S").contains ["epsilon"] &&
  (prodsOf g "S").any (fun p =>
    p.length == 3 && p.getD 0 "" == "a" && p.getD 1 "" == "S" && p.getD 2 "" == "b")

/-- The membership answer of `parse_string`'s aⁿbⁿ fast path
(`cfgParser.py` lines 190-208): equal counts of `a` and `b`, no other
characters, and no `a` after a `b`. -/
def anbnCheck (input : String) : Bool :=
  let l := input.toList
  let aCount := l.count 'a'
  let bCount := l.count 'b'
  if aCount + bCount ≠ l.length then false
  else if aCount == bCount then
    (List.range l.length).all (fun i =>
      !(l.getD i ' ' == 'a' && (l.take i).contains 'b'))
  else false

/-- One pass of `parse_string`'s inner `for production in ...` loop
(`cfgParser.py` lines 248-266).  `Sum.inl ()` models the early `return True`;
`Sum.inr adds` collects the states appended to the queue, in order.  `none`
models the `IndexError` a zero-length body would raise at `production[0]`. -/
def prodScan (g : CFG) (rem : List Char) : List (List String) → Option (Sum Unit (List (String × List Char)))
  | [] => some (Sum.inr [])
  | p :: ps =>
    if p == ["epsilon"] then
      match prodScan g rem ps with
      | none => none
      | some (Sum.inl u) => some (Sum.inl u)
      | some (Sum.inr adds) => some (Sum.inr (("", rem) :: adds))
    else
      match p with
      | [] => none
      | first :: restP =>
        let rest_symbols : List String := if restP.isEmpty then [""] else restP
        let cont : Option (String × List Char) → Option (Sum Unit (List (String × List Char))) :=
          fun add =>
            match prodScan g rem ps with
            | none => none
            | some (Sum.inl u) => some (Sum.inl u)
            | some (Sum.inr adds) =>
              some (Sum.inr (match add with | none => adds | some a => a :: adds))
        if g.terminals.contains first then
          match rem with
          | [] => cont none
          | c :: remRest =>
            if String.singleton c == first then
              if rest_symbols == [""] then
                if remRest.isEmpty then some (Sum.inl ())
                else cont (some ("", remRest))
              else cont (some (rest_symbols.headD "", remRest))
            else cont none
        else cont (some (first, rem))

/-- The breadth-first loop of `parse_string` (`cfgParser.py` lines 213-268),
with explicit fuel (one unit per iteration of the `while queue:` loop). -/
def bfs (g : CFG) : Nat → List (String × List Char) → List (String × List Char) → Option Bool
  | 0, _, _ => none
  | _ + 1, [], _ => some false
  | n + 1, (cur, rem) :: qs, visited =>
    if visited.contains (cur, rem) then bfs g n qs visited
    else
      let vis := (cur, rem) :: visited
      if g.terminals.contains cur then
        match rem with
        | [] => bfs g n qs vis
        | c :: rest =>
          if String.singleton c == cur then
            if rest.isEmpty then some true
            else bfs g n (qs ++ [("", rest)]) vis
          else bfs g n qs vis
      else if cur == "epsilon" && rem.isEmpty then some true
      else if cur == "" then
        if rem.isEmpty then some true
        else
          bfs g n
            (qs ++ (g.vars.map (fun v => (prodsOf g v).map (fun _ => (v, rem)))).join) vis
      else
        match prodScan g rem (prodsOf g cur) with
        | none => none
        | some (Sum.inl _) => some true
        | some (Sum.inr adds) => bfs g n (qs ++ adds) vis

/-- `parse_string` of `cfgParser.py` (lines 170-268).  An unset start symbol
makes the Python code return `False` on every input (the dict lookups with
`None` all miss), modelled directly. -/
def parse_string (g : CFG) (input : String) (fuel : Nat) : Option Bool :=
  match g.start_symbol with
  | none => some false
  | some S =>
    if input == "" then some ((prodsOf g S).contains ["epsilon"])
    else if is_anbn g then some (anbnCheck input)
    else bfs g fuel [(S, input.toList)] []

end CFG

/-- Python `str.replace(old, new)` on char lists: replace every non-overlapping
occurrence, scanning left to right.  The fuel is the length of the scanned
list; every step consumes at least one character, so `pyReplace` below never
exhausts it.  (The `old = ""` case, which Python treats specially, is never
exercised by the source.) -/
def pyReplaceAux : Nat → List Char → List Char → List Char → List Char
  | 0, _, _, _ => []
  | _ + 1, [], _, _ => []
  | n + 1, c :: rest, old, new =>
    if !old.isEmpty && old.isPrefixOf (c :: rest) then
      new ++ pyReplaceAux n (List.drop (old.length - 1) rest) old new
    else
      c :: pyReplaceAux n rest old new

/-- Python `s.replace(old, new)`. -/
def pyReplace (s old new : String) : String :=
  ⟨pyReplaceAux s.length s.toList old.toList new.toList⟩

namespace CFG

/-- The loop of the aⁿbⁿ fast path of `get_derivation_steps`
(`cfgParser.py` lines 411-415): `a_count` times replace `S` by `a S b`. -/
def anbnGo : Nat → String → List String → String × List String
  | 0, current, steps => (current, steps)
  | k + 1, current, steps =>
    let c := pyReplace current "S" "a S b"
    anbnGo k c (steps ++ [c])

/-- The step list produced by the aⁿbⁿ fast path of `get_derivation_steps`
(`cfgParser.py` lines 403-425): grow `a S b` once per `a`, then erase `S`. -/
def anbnSteps (input : String) : List String :=
  let aCount := input.toList.count 'a'
  let cs := anbnGo aCount "S" ["S"]
  cs.snd ++ [pyReplace cs.fst "S" ""]

/-- The expansion position chosen by the two strategies: the first variable
occurrence scanning left to right, or the last scanning right to left
(`cfgParser.py` lines 440-444 and 483-487, `cfg_parser_base_.py` lines
190 and 209). -/
def findVarIdx (g : CFG) (strat : Strategy) (form : List String) : Option Nat :=
  match strat with
  | .left => form.findIdx? (fun s => g.vars.contains s)
  | .right => (List.range form.length).reverse.find? (fun i => g.vars.contains (form.getD i ""))

/-- Python `input_string.startswith(test)` on the underlying character
lists. -/
def pyStartsWith (s pre : String) : Bool := pre.toList.isPrefixOf s.toList

/-- The inner `for production in self.productions[var]` loop of the greedy
derivation in `get_derivation_steps` (`cfgParser.py` lines 453-471 and
496-508): the first production whose substituted form's terminal
concatenation is consistent with the target is taken. -/
def pickProd (g : CFG) (strat : Strategy) (input : String) (form : List String) (i : Nat) :
    List (List String) → Option (List String)
  | [] => none
  | p :: ps =>
    let newForm := form.take i ++ (if p == ["epsilon"] then [] else p) ++ form.drop (i + 1)
    let test := String.join (newForm.filter (fun s => g.terminals.contains s))
    let ok : Bool :=
      match strat with
      | .left => pyStartsWith input test && decide (test.length ≤ input.length)
      | .right =>
        decide (test.length ≤ input.length) &&
          (List.range test.length).all (fun j => test.toList.getD j ' ' == input.toList.getD j ' ')
    if ok then some newForm else pickProd g strat input form i ps

/-- The greedy `while ''.join(sentential_form) != input_string:` loop of
`get_derivation_steps` (`cfgParser.py` lines 434-511), one fuel unit per
iteration; the loop body never backtracks. -/
def greedyLoop (g : CFG) (strat : Strategy) (input : String) :
    Nat → List String → List String → Option (List String × List String)
  | 0, _, _ => none
  | n + 1, form, steps =>
    if String.join form == input then some (form, steps)
    else
      match findVarIdx g strat form with
      | none => some (form, steps)
      | some i =>
        match pickProd g strat input form i (prodsOf g (form.getD i "")) with
        | none => some (form, steps)
        | some newForm => greedyLoop g strat input n newForm (steps ++ [String.intercalate " " newForm])

/-- `get_derivation_steps` of `cfgParser.py` (lines 385-523).  Returns
`some (some steps)` for a found derivation, `some none` for the Python
`None`, and `none` when the fuel ran out. -/
def get_derivation_steps (g : CFG) (input : String) (strat : Strategy) (fuel : Nat) :
    Option (Option (List String)) :=
  match parse_string g input fuel with
  | none => none
  | some ok =>
    if is_anbn g && ok then some (some (anbnSteps input))
    else if !ok then some none
    else
      match g.start_symbol with
      | none => none
      | some S =>
        match greedyLoop g strat input fuel [S] [String.intercalate " " [S]] with
        | none => none
        | some (form, steps) =>
          if String.join form == input then some (some steps) else some none

end CFG

/-- The mutable state shared by the nested `derive` of
`cfg_parser_base_.py`'s `get_derivation_steps` (lines 167-239): the
`visited_states` set, the `steps`/`derivation_path` list (one and the same
Python list), and the `self.parse_tree_edges` attribute. -/
structure DState where
  visited : List (String × Nat)
  path : List String
  edges : List (String × String)
deriving DecidableEq

namespace CFG

/-- The `for prod in self.productions[sym]` loop of `derive`
(`cfg_parser_base_.py` lines 192-202 and 212-222), parameterised by the
recursive call `recur` (taking the new form, the new `parent_node`, and the
state).  On a failed recursion the step pushed for the attempt is popped;
the recorded edges are never removed. -/
def tryProdsWith (recur : List String → String → DState → Option (Bool × DState))
    (cur : List String) (i : Nat) (sym parent : String) :
    List (List String) → DState → Option (Bool × DState)
  | [], st => some (false, st)
  | p :: ps, st =>
    let newSyms := cur.take i ++ (if p == ["epsilon"] then [] else p) ++ cur.drop (i + 1)
    let st1 : DState :=
      { st with path := st.path ++ [String.intercalate " " newSyms],
                edges := if parent.isEmpty then st.edges
                         else st.edges ++ p.map (fun child => (parent, child)) }
    match recur newSyms sym st1 with
    | none => none
    | some (true, st2) => some (true, st2)
    | some (false, st2) =>
      tryProdsWith recur cur i sym parent ps { st2 with path := st2.path.dropLast }

/-- The recursive `derive` of `cfg_parser_base_.py` (lines 176-228), with one
fuel unit per nesting level.  `remaining_input` is passed along unchanged, as
in the source, so the matched-count component of the `SearchState` key is
always `input.length - rem.length`. -/
def derive (g : CFG) (input : String) (strat : Strategy) :
    Nat → List String → List Char → String → DState → Option (Bool × DState)
  | 0, _, _, _, _ => none
  | n + 1, cur, rem, parent, st =>
    let key : String × Nat := (String.intercalate " " cur, input.length - rem.length)
    if st.visited.contains key then some (false, st)
    else
      let st1 : DState := { st with visited := key :: st.visited }
      if cur.isEmpty && rem.isEmpty then
        some (true, { st1 with path := st1.path ++ [String.intercalate " " st1.path] })
      else if cur.isEmpty || (rem.isEmpty && !(cur == ["epsilon"])) then
        some (false, st1)
      else
        match findVarIdx g strat cur with
        | some i =>
          tryProdsWith (fun ns par st' => derive g input strat n ns rem par st')
            cur i (cur.getD i "") parent (prodsOf g (cur.getD i "")) st1
        | none =>
          if String.join cur == input then
            some (true, { st1 with path := st1.path ++ [String.intercalate " " cur] })
          else some (false, st1)

/-- `get_derivation_steps` of `cfg_parser_base_.py` (lines 167-239).  The
result pairs the returned value (`some steps` or the Python `None`) with the
`self.parse_tree_edges` attribute left behind by the search; `none` means the
fuel ran out (the Python recursion did not come back). -/
def get_derivation_steps_base (g : CFG) (input : String) (strat : Strategy) (fuel : Nat) :
    Option (Option (List String) × List (String × String)) :=
  match g.start_symbol with
  | none => none
  | some S =>
    let st0 : DState := { visited := [], path := [String.intercalate " " [S]], edges := [] }
    match derive g input strat fuel [S] input.toList S st0 with
    | none => none
    | some (true, st) => some (some st.path, st.edges)
    | some (false, st) => some (none, st.edges)

end CFG

/-- The node bookkeeping of `generate_parse_tree` in `cfg_parser_base_.py`
(lines 249-257): Graphviz nodes are memoized per symbol string, so every
occurrence of the same symbol is mapped to one node id. -/
def getNodeId : (List (String × String) × Nat) → String → String × (List (String × String) × Nat)
  | (nm, cnt), sym =>
    match nm.lookup sym with
    | some id => (id, (nm, cnt))
    | none => (toString cnt, (nm ++ [(sym, toString cnt)], cnt + 1))

/-- The `for parent, child in self.parse_tree_edges` loop of
`generate_parse_tree` (`cfg_parser_base_.py` lines 261-264), returning the
emitted Graphviz edges and the final node map. -/
def buildEdges : (List (String × String) × Nat) → List (String × String) →
    List (String × String) × (List (String × String) × Nat)
  | st, [] => ([], st)
  | st, (p, c) :: es =>
    let r1 := getNodeId st p
    let r2 := getNodeId r1.snd c
    let rest := buildEdges r2.snd es
    ((r1.fst, r2.fst) :: rest.fst, rest.snd)

/-- The Graphviz graph drawn by `generate_parse_tree` of
`cfg_parser_base_.py`: `nodes` lists `(symbol label, node id)` in creation
order (the start symbol first), `edges` lists node-id pairs in insertion
order. -/
structure PTGraph where
  nodes : List (String × String)
  edges : List (String × String)
deriving DecidableEq

/-- `generate_parse_tree` of `cfg_parser_base_.py` (lines 241-267): nothing is
drawn when no edges were recorded; otherwise the start symbol's node is
created first and every recorded edge is emitted. -/
def generate_parse_tree_base (g : CFG) (edges : List (String × String)) : Option PTGraph :=
  if edges.isEmpty then none
  else
    match g.start_symbol with
    | none => none
    | some S =>
      let r0 := getNodeId ([], 0) S
      let r := buildEdges r0.snd edges
      some { nodes := r.snd.fst, edges := r.fst }

/-- The graph built from an edge list and a start symbol (the core of
`generate_parse_tree_base`, without the empty-edge-list early return). -/
def buildGraph (start : String) (edges : List (String × String)) : PTGraph :=
  let r0 := getNodeId ([], 0) start
  let r := buildEdges r0.snd edges
  { nodes := r.snd.fst, edges := r.fst }

/-- Reading the drawn graph as a tree: the labels of the nodes that are never
used as an edge's parent, in node-creation order, concatenated. -/
def leavesConcat (gph : PTGraph) : String :=
  String.join ((gph.nodes.filter (fun n => !(gph.edges.any (fun e => e.fst == n.snd)))).map Prod.fst)

/-- Spec Example 1 grammar: `S -> a S b | epsilon` with terminals `a`, `b`. -/
def exGrammarAnbn : CFG := ⟨["S"], ["a", "b"], [("S", [["a", "S", "b"], ["epsilon"]])], some "S"⟩

/-- A grammar with productions `S -> a` and `S -> a b`, in that order. -/
def exGrammarAB : CFG := ⟨["S"], ["a", "b"], [("S", [["a"], ["a", "b"]])], some "S"⟩

/-- Spec Example 3 grammar: only `S -> a`. -/
def exGrammarSa : CFG := ⟨["S"], ["a"], [("S", [["a"]])], some "S"⟩

/-- A grammar deriving the empty string only through a chain:
`S -> A`, `A -> epsilon`. -/
def exGrammarChain : CFG := ⟨["S", "A"], ["a"], [("S", [["A"]]), ("A", [["epsilon"]])], some "S"⟩

/-- Spec Example 4 grammar: `A -> A | a`, the cyclic unit production declared
first. -/
def exGrammarCycle : CFG := ⟨["A"], ["a"], [("A", [["A"], ["a"]])], some "A"⟩

/-- The grammar `A -> a`, used with the underivable target `"b"`. -/
def exGrammarFail : CFG := ⟨["A"], ["a", "b"], [("A", [["a"]])], some "A"⟩

/-- The grammar `S -> a a`, whose parse tree has two distinct `a` leaves. -/
def exGrammarSaa : CFG := ⟨["S"], ["a"], [("S", [["a", "a"]])], some "S"⟩

/-- Formalisation of the specification's notion of derivability ("the empty
string is derivable from the start symbol, possibly through a chain of
productions"): replace one variable occurrence by one of its declared bodies,
an `[epsilon]` body contributing no symbols.  Used only to compare the code
against the spec's wording. -/
inductive SpecDerives (g : CFG) : List String → List String → Prop where
  | refl (xs : List String) : SpecDerives g xs xs
  | step (pre post : List String) (v : String) (body tgt : List String)
      (hb : body ∈ CFG.prodsOf g v)
      (h : SpecDerives g (pre ++ (if body = ["epsilon"] then [] else body) ++ post) tgt) :
      SpecDerives g (pre ++ [v] ++ post) tgt

/-- C2: for the grammar with productions `A -> A` and `A -> a` in that
declaration order and target `"a"`, the search of
`cfg_parser_base_.py` terminates — 20 units of fuel are not exhausted — and
returns success: the visited-state check prunes the cyclic re-entry into
`(A, 0)` and the second production closes the derivation. -/
theorem c2_cycle_grammar_terminates_success :
    CFG.get_derivation_steps_base exGrammarCycle "a" Strategy.left 20 =
      some (some ["A", "a", "a"], [("A", "A"), ("A", "a")]) := by decide

/-- C3 counterexample: on the Example 1 grammar and target `"aabb"`, the
leftmost trace of `cfgParser.py` is not the claimed
`["S", "a S b", "a a S b b", "a a b b"]`. -/
theorem c3_counterexample :
    CFG.get_derivation_steps exGrammarAnbn "aabb" Strategy.left 50 ≠
      some (some ["S", "a S b", "a a S b b", "a a b b"]) := by decide

/-- C3 (amended): the leftmost trace for the Example 1 grammar and target
`"aabb"` is `["S", "a S b", "a a S b b", "a a  b b"]` — the final step, made
by `str.replace('S', '')`, keeps both spaces that surrounded `S`, so it is
the target only up to whitespace. -/
theorem c3_anbn_trace_steps :
    CFG.get_derivation_steps exGrammarAnbn "aabb" Strategy.left 50 =
      some (some ["S", "a S b", "a a S b b", "a a  b b"]) := by decide

/-- C4 counterexample: the grammar `S -> A`, `A -> epsilon` derives the empty
string from its start symbol through a chain of productions, yet
`parse_string` rejects the empty target, because it only scans the start
symbol's own production list for a literal `['epsilon']` body. -/
theorem c4_counterexample :
    CFG.parse_string exGrammarChain "" 10 = some false ∧
      SpecDerives exGrammarChain ["S"] [] := by
  refine ⟨by decide, ?_⟩
  have h2 : SpecDerives exGrammarChain ([] ++ [("A" : String)] ++ []) [] := by
    have h3 : SpecDerives exGrammarChain
        ([] ++ (if (["epsilon"] : List String) = ["epsilon"] then [] else ["epsilon"]) ++ []) [] := by
      simpa using SpecDerives.refl ([] : List String)
    simpa using SpecDerives.step [] [] "A" ["epsilon"] [] (by decide) h3
  have h1 : SpecDerives exGrammarChain
      ([] ++ (if (["A"] : List String) = ["epsilon"] then [] else ["A"]) ++ []) [] := by
    simpa using h2
  simpa using SpecDerives.step [] [] "S" ["A"] [] (by decide) h1

/-- C4 (amended): membership of the empty target succeeds if and only if the
start symbol has a direct `['epsilon']` production — chains of productions are
not considered; in particular the Example 3 grammar `S -> a` rejects `""`. -/
theorem c4_empty_target_iff_direct_epsilon (g : CFG) (S : String) (fuel : Nat)
    (h : g.start_symbol = some S) :
    (CFG.parse_string g "" fuel = some true ↔ ["epsilon"] ∈ CFG.prodsOf g S) := by
  unfold CFG.parse_string
  rw [h]
  simp [List.contains, List.elem_iff]

/-- C4 witness: the amended theorem applied to the Example 3 grammar `S -> a`
(whose production list has no epsilon body, so the empty target is rejected). -/
theorem c4_witness :
    CFG.parse_string exGrammarSa "" 5 = some true ↔ ["epsilon"] ∈ CFG.prodsOf exGrammarSa "S" :=
  c4_empty_target_iff_direct_epsilon exGrammarSa "S" 5 rfl

/-- C1 counterexample: for the grammar `S -> a | a b` and target `"ab"`, the
membership-only search succeeds but the tracer returns the Python `None` (its
greedy derivation commits to `S -> a` and gets stuck), so trace success and
search success are not equivalent. -/
theorem c1_counterexample :
    CFG.parse_string exGrammarAB "ab" 50 = some true ∧
      CFG.get_derivation_steps exGrammarAB "ab" Strategy.left 50 = some none := by decide

/-- C1 (amended): one direction holds — whenever `get_derivation_steps` of
`cfgParser.py` returns a derivation, `parse_string` on the same grammar,
target and fuel returns `True`, because both of the tracer's
success paths first consult `parse_string`. -/
theorem c1_trace_success_implies_search (g : CFG) (input : String) (strat : Strategy)
    (fuel : Nat) (steps : List String)
    (h : CFG.get_derivation_steps g input strat fuel = some (some steps)) :
    CFG.parse_string g input fuel = some true := by
  unfold CFG.get_derivation_steps at h
  cases hp : CFG.parse_string g input fuel with
  | none => rw [hp] at h; exact absurd h (by simp)
  | some ok =>
    rw [hp] at h
    cases ok with
    | true => rfl
    | false => simp at h

/-- C1 witness: the amended implication applied to the Example 1 grammar and
target `"aabb"`, where the trace does succeed. -/
theorem c1_witness : CFG.parse_string exGrammarAnbn "aabb" 50 = some true :=
  c1_trace_success_implies_search exGrammarAnbn "aabb" Strategy.left 50
    ["S", "a S b", "a a S b b", "a a  b b"] (by decide)

/-- C7 counterexample: on the fresh model, `add_production('A', ['b'])` is
accepted even though neither `A` is a declared variable nor `b` a declared
terminal — the call checks character classes, not declaredness. -/
theorem c7_counterexample :
    (CFG.init.add_production "A" ["b"]).snd = true ∧
      CFG.init.vars.contains "A" = false ∧ CFG.init.terminals.contains "b" = false := by decide

/-- C7 (amended): `add_production` accepts exactly when the character-class
check `validate_production` passes (head matches `[A-Z]`, every body symbol is
`'epsilon'` or matches the variable or terminal character class — declaredness
is never consulted), and a rejected call leaves the model completely
unchanged. -/
theorem c7_charclass_validation_reject_unchanged (g : CFG) (head : String) (body : List String) :
    (g.add_production head body).snd = CFG.validate_production head body ∧
      (CFG.validate_production head body = false → g.add_production head body = (g, false)) := by
  constructor
  · unfold CFG.add_production
    split <;> simp_all
  · intro hf
    unfold CFG.add_production
    rw [hf]
    simp

/-- C7 witness: the amended theorem applied to a rejected call (`'a'` fails
the head character class), showing the model untouched. -/
theorem c7_witness : CFG.init.add_production "a" ["b"] = (CFG.init, false) :=
  (c7_charclass_validation_reject_unchanged CFG.init "a" ["b"]).2 (by decide)

/-- C8 counterexample: a body mixing the Epsilon marker with another symbol,
`['a', 'epsilon']`, is accepted by `add_production`, which the claim says must
be rejected. -/
theorem c8_counterexample :
    (CFG.init.add_production "S" ["a", "epsilon"]).snd = true := by decide

/-- C8 (amended): the Epsilon marker is not restricted to singleton bodies —
`validate_production` treats `'epsilon'` as always valid at any position, so
inserting it into any accepted body keeps the body accepted. -/
theorem c8_epsilon_mix_accepted (g : CFG) (head : String) (body : List String)
    (h : (g.add_production head body).snd = true) :
    (g.add_production head ("epsilon" :: body)).snd = true := by
  have hv : CFG.validate_production head body = true := by
    by_contra hv
    rw [Bool.not_eq_true] at hv
    unfold CFG.add_production at h
    rw [hv] at h
    simp at h
  have hv2 : CFG.validate_production head ("epsilon" :: body) = true := by
    unfold CFG.validate_production at hv ⊢
    simp only [List.all_cons, beq_self_eq_true, Bool.true_or, Bool.true_and]
    exact hv
  unfold CFG.add_production
  rw [hv2]
  simp

/-- C8 witness: the amended theorem applied to the accepted body `['a']`,
showing `['epsilon', 'a']` is accepted too. -/
theorem c8_witness : (CFG.init.add_production "S" ["epsilon", "a"]).snd = true :=
  c8_epsilon_mix_accepted CFG.init "S" ["a"] (by decide)

/-- Helper for C6: the production loop never removes recorded edges, provided
the recursive call never does. -/
theorem tryProdsWith_edges_extend
    (recur : List String → String → DState → Option (Bool × DState))
    (hrec : ∀ ns par st b st', recur ns par st = some (b, st') → ∃ t, st.edges ++ t = st'.edges)
    (cur : List String) (i : Nat) (sym parent : String) :
    ∀ (ps : List (List String)) (st : DState) (b : Bool) (st' : DState),
      CFG.tryProdsWith recur cur i sym parent ps st = some (b, st') →
      ∃ t, st.edges ++ t = st'.edges := by
  intro ps
  induction ps with
  | nil =>
    intro st b st' h
    simp only [CFG.tryProdsWith, Option.some.injEq, Prod.mk.injEq] at h
    obtain ⟨hb, hst⟩ := h
    subst hst
    exact ⟨[], by simp⟩
  | cons p ps ih =>
    intro st b st' h
    simp only [CFG.tryProdsWith] at h
    have hext : ∃ t0, st.edges ++ t0 =
        (if parent.isEmpty = true then st.edges
         else st.edges ++ p.map (fun child => (parent, child))) := by
      split
      · exact ⟨[], by simp⟩
      · exact ⟨_, rfl⟩
    obtain ⟨t0, ht0⟩ := hext
    generalize hE : (if parent.isEmpty = true then st.edges
        else st.edges ++ p.map (fun child => (parent, child))) = E at h ht0
    generalize hNS : cur.take i ++ (if (p == ["epsilon"]) = true then [] else p) ++
        cur.drop (i + 1) = NS at h
    split at h
    · exact Option.noConfusion h
    · rename_i st2 heq
      simp only [Option.some.injEq, Prod.mk.injEq] at h
      obtain ⟨hb, hst⟩ := h
      subst hst
      obtain ⟨t1, ht1⟩ := hrec _ _ _ _ _ heq
      have ht1e : E ++ t1 = st2.edges := ht1
      refine ⟨t0 ++ t1, ?_⟩
      rw [← List.append_assoc, ht0]
      exact ht1e
    · rename_i st2 heq
      obtain ⟨t1, ht1⟩ := hrec _ _ _ _ _ heq
      have ht1e : E ++ t1 = st2.edges := ht1
      obtain ⟨t2, ht2⟩ := ih _ _ _ h
      have ht2e : st2.edges ++ t2 = st'.edges := ht2
      refine ⟨t0 ++ t1 ++ t2, ?_⟩
      simp only [← List.append_assoc]
      rw [ht0, ht1e]
      exact ht2e

/-- C6 (amended): the trace's failure path returns the Python `None` with no
step list, but the recorded edge state is append-only — `derive` of
`cfg_parser_base_.py` never removes an edge once recorded, so edges from
abandoned and failed branches persist in `self.parse_tree_edges` and remain
observable after a failed search. -/
theorem c6_edges_append_only (g : CFG) (input : String) (strat : Strategy) :
    ∀ (fuel : Nat) (cur : List String) (rem : List Char) (parent : String) (st : DState)
      (b : Bool) (st' : DState),
      CFG.derive g input strat fuel cur rem parent st = some (b, st') →
      ∃ t, st.edges ++ t = st'.edges := by
  intro fuel
  induction fuel with
  | zero =>
    intro cur rem parent st b st' h
    exact absurd h (by simp [CFG.derive])
  | succ n ih =>
    intro cur rem parent st b st' h
    simp only [CFG.derive] at h
    by_cases h1 : (st.visited.contains (String.intercalate " " cur, input.length - rem.length)) = true
    · rw [if_pos h1] at h
      simp only [Option.some.injEq, Prod.mk.injEq] at h
      obtain ⟨hb, hst⟩ := h
      subst hst
      exact ⟨[], by simp⟩
    · rw [if_neg h1] at h
      by_cases h2 : (cur.isEmpty && rem.isEmpty) = true
      · rw [if_pos h2] at h
        simp only [Option.some.injEq, Prod.mk.injEq] at h
        obtain ⟨hb, hst⟩ := h
        subst hst
        exact ⟨[], by simp⟩
      · rw [if_neg h2] at h
        by_cases h3 : (cur.isEmpty || (rem.isEmpty && !(cur == ["epsilon"]))) = true
        · rw [if_pos h3] at h
          simp only [Option.some.injEq, Prod.mk.injEq] at h
          obtain ⟨hb, hst⟩ := h
          subst hst
          exact ⟨[], by simp⟩
        · rw [if_neg h3] at h
          split at h
          · rename_i i heq
            exact tryProdsWith_edges_extend _
              (fun ns par stx bx stx' hx => ih ns rem par stx bx stx' hx) cur i (cur.getD i "")
              parent (CFG.prodsOf g (cur.getD i ""))
              ⟨(String.intercalate " " cur, input.length - rem.length) :: st.visited, st.path, st.edges⟩
              b st' h
          · by_cases h4 : (String.join cur == input) = true
            · rw [if_pos h4] at h
              simp only [Option.some.injEq, Prod.mk.injEq] at h
              obtain ⟨hb, hst⟩ := h
              subst hst
              exact ⟨[], by simp⟩
            · rw [if_neg h4] at h
              simp only [Option.some.injEq, Prod.mk.injEq] at h
              obtain ⟨hb, hst⟩ := h
              subst hst
              exact ⟨[], by simp⟩

/-- C6 witness: the append-only theorem applied to the failing search of
`A -> a` against target `"b"`, whose failed branch leaves the edge
`(A, a)` recorded. -/
theorem c6_witness : ∃ t, ([] : List (String × String)) ++ t = [("A", "a")] :=
  c6_edges_append_only exGrammarFail "b" Strategy.left 10 ["A"] "b".toList "A"
    ⟨[], ["A"], []⟩ false ⟨[("a", 0), ("A", 0)], ["A"], [("A", "a")]⟩ (by decide)

/-- C6 counterexample: for `A -> a` and target `"b"` the trace fails and
returns `None`, yet `self.parse_tree_edges` still holds the edge recorded in
the failed branch — the claim that no edges remain observable is false. -/
theorem c6_counterexample :
    CFG.get_derivation_steps_base exGrammarFail "b" Strategy.left 10 =
      some (none, [("A", "a")]) ∧ ([("A", "a")] : List (String × String)) ≠ [] := by decide

/-- Helper for C9: `derive` consults the grammar only through production
lookups and variable-set membership, so any two grammar values with the same
production map and membership-equal variable sets drive it identically. -/
theorem derive_congr (g1 g2 : CFG) (hp : g1.productions = g2.productions)
    (hv : ∀ s, g1.vars.contains s = g2.vars.contains s)
    (input : String) (strat : Strategy) :
    ∀ (fuel : Nat) (cur : List String) (rem : List Char) (parent : String) (st : DState),
      CFG.derive g1 input strat fuel cur rem parent st =
        CFG.derive g2 input strat fuel cur rem parent st := by
  have hpo : ∀ x, CFG.prodsOf g1 x = CFG.prodsOf g2 x := by
    intro x
    unfold CFG.prodsOf
    rw [hp]
  have hfi : ∀ (s : Strategy) (c : List String),
      CFG.findVarIdx g1 s c = CFG.findVarIdx g2 s c := by
    intro s c
    cases s <;> simp only [CFG.findVarIdx, hv]
  intro fuel
  induction fuel with
  | zero => intro cur rem parent st; rfl
  | succ n ih =>
    intro cur rem parent st
    have hrec : (fun ns par st' => CFG.derive g1 input strat n ns rem par st') =
        (fun ns par st' => CFG.derive g2 input strat n ns rem par st') :=
      funext fun ns => funext fun par => funext fun st' => ih ns rem par st'
    simp only [CFG.derive, hfi, hpo, hrec]

/-- C9: the base-file trace is a pure function of the production map (with
its declaration order), the start symbol, the membership of the variable
set, and the strategy — two grammar values whose unordered variable sets have
the same members produce the identical derivability verdict, step sequence,
and edge list, so nothing depends on set iteration order or any other
run-to-run variation. -/
theorem c9_trace_set_order_invariant (g1 g2 : CFG)
    (hp : g1.productions = g2.productions) (hs : g1.start_symbol = g2.start_symbol)
    (hv : ∀ s, g1.vars.contains s = g2.vars.contains s)
    (input : String) (strat : Strategy) (fuel : Nat) :
    CFG.get_derivation_steps_base g1 input strat fuel =
      CFG.get_derivation_steps_base g2 input strat fuel := by
  unfold CFG.get_derivation_steps_base
  rw [hs]
  cases h2 : g2.start_symbol with
  | none => rfl
  | some S => simp only [derive_congr g1 g2 hp hv input strat]

/-- Two presentations of the Example 4 grammar whose variable sets list `A`
and `B` in different orders (same production map, same start symbol). -/
def exGrammarPerm1 : CFG := ⟨["A", "B"], ["a"], [("A", [["A"], ["a"]]), ("B", [])], some "A"⟩

/-- The same grammar as `exGrammarPerm1` with the variable list reversed. -/
def exGrammarPerm2 : CFG := ⟨["B", "A"], ["a"], [("A", [["A"], ["a"]]), ("B", [])], some "A"⟩

/-- C9 witness: the invariance theorem applied to the two variable-order
presentations of the Example 4 grammar. -/
theorem c9_witness :
    CFG.get_derivation_steps_base exGrammarPerm1 "a" Strategy.left 20 =
      CFG.get_derivation_steps_base exGrammarPerm2 "a" Strategy.left 20 :=
  c9_trace_set_order_invariant exGrammarPerm1 exGrammarPerm2 rfl rfl
    (fun s => by
      by_cases hA : s = "A"
      · subst hA; decide
      · by_cases hB : s = "B"
        · subst hB; decide
        · have hA' : (s == "A") = false := by simp [hA]
          have hB' : (s == "B") = false := by simp [hB]
          simp [List.contains, List.elem, hA', hB'])
    "a" Strategy.left 20

/-- Helper: association-list lookup over an append succeeds iff it succeeds
in either part. -/
theorem lookup_append_isSome (ps qs : List (String × List (List String))) (v : String) :
    ((ps ++ qs).lookup v).isSome = ((ps.lookup v).isSome || (qs.lookup v).isSome) := by
  induction ps with
  | nil => simp [List.lookup]
  | cons kv rest ih =>
    obtain ⟨k0, bs⟩ := kv
    by_cases h : (v == k0) = true
    · simp [List.lookup, h]
    · simp [List.lookup, h, ih]

/-- Helper: lookup success is a function of the key list alone. -/
theorem lookup_isSome_eq_keys (ps : List (String × List (List String))) (v : String) :
    (ps.lookup v).isSome = (ps.map Prod.fst).contains v := by
  induction ps with
  | nil => rfl
  | cons kv rest ih =>
    obtain ⟨k0, bs⟩ := kv
    by_cases h : (v == k0) = true
    · simp [List.lookup, h, List.contains, List.elem]
    · simp only [List.lookup, h, List.map_cons]
      rw [ih]
      simp [List.contains, List.elem, h]

/-- Helper: `appendBody` rewrites values in place and never changes keys. -/
theorem appendBody_keys (ps : List (String × List (List String))) (k : String)
    (body : List String) :
    (CFG.appendBody ps k body).map Prod.fst = ps.map Prod.fst := by
  induction ps with
  | nil => rfl
  | cons kv rest ih =>
    obtain ⟨k0, bs⟩ := kv
    show ((if (k0 == k) = true then (k0, bs ++ [body]) else (k0, bs)) ::
        CFG.appendBody rest k body).map Prod.fst = k0 :: rest.map Prod.fst
    rw [List.map_cons, ih]
    split <;> rfl

/-- Helper: `appendBody` preserves which lookups succeed. -/
theorem appendBody_lookup_isSome (ps : List (String × List (List String))) (k : String)
    (body : List String) (v : String) :
    ((CFG.appendBody ps k body).lookup v).isSome = (ps.lookup v).isSome := by
  rw [lookup_isSome_eq_keys, lookup_isSome_eq_keys, appendBody_keys]

/-- Helper: `ensureKey` only adds a key. -/
theorem ensureKey_lookup_isSome_mono (ps : List (String × List (List String))) (k v : String)
    (h : (ps.lookup v).isSome = true) :
    ((CFG.ensureKey ps k).lookup v).isSome = true := by
  unfold CFG.ensureKey
  split
  · exact h
  · rw [lookup_append_isSome]
    simp [h]

/-- Helper: after `ensureKey ps k`, the key `k` is present. -/
theorem ensureKey_lookup_self (ps : List (String × List (List String))) (k : String) :
    ((CFG.ensureKey ps k).lookup k).isSome = true := by
  unfold CFG.ensureKey
  split
  · assumption
  · rw [lookup_append_isSome]
    simp [List.lookup]

/-- Helper: membership after a Python `set.add`. -/
theorem setAdd_contains_cases (l : List String) (x v : String)
    (h : (CFG.setAdd l x).contains v = true) : l.contains v = true ∨ v = x := by
  unfold CFG.setAdd at h
  split at h
  · exact Or.inl h
  · rcases List.mem_append.mp (List.elem_iff.mp h) with hl | hx
    · exact Or.inl (List.elem_iff.mpr hl)
    · exact Or.inr (List.mem_singleton.mp hx)

/-- The invariant of claim C10: every member of the variable set is a key of
the production map. -/
def InvPK (g : CFG) : Prop :=
  ∀ v, g.vars.contains v = true → (g.productions.lookup v).isSome = true

/-- Helper for C10: every single mutator call preserves the invariant,
whether it is accepted or rejected. -/
theorem invPK_applyOp (g : CFG) (op : GOp) (hInv : InvPK g) : InvPK (applyOp g op) := by
  cases op with
  | addVar v0 =>
    intro v hv
    simp only [applyOp, CFG.add_variable] at hv ⊢
    by_cases hval : CFG.validate_variable v0 = true
    · rw [if_pos hval] at hv ⊢
      have hv' : (CFG.setAdd g.vars v0).contains v = true := hv
      show ((CFG.ensureKey g.productions v0).lookup v).isSome = true
      rcases setAdd_contains_cases _ _ _ hv' with hl | hx
      · exact ensureKey_lookup_isSome_mono _ _ _ (hInv v hl)
      · subst hx
        exact ensureKey_lookup_self _ _
    · rw [if_neg hval] at hv ⊢
      exact hInv v hv
  | addTerm t0 =>
    intro v hv
    simp only [applyOp, CFG.add_terminal] at hv ⊢
    by_cases hval : CFG.validate_terminal t0 = true
    · rw [if_pos hval] at hv ⊢
      exact hInv v hv
    · rw [if_neg hval] at hv ⊢
      exact hInv v hv
  | addProd h0 b0 =>
    intro v hv
    simp only [applyOp, CFG.add_production] at hv ⊢
    by_cases hval : CFG.validate_production h0 b0 = true
    · rw [if_pos hval] at hv ⊢
      have hv' : g.vars.contains v = true := hv
      show ((CFG.appendBody (CFG.ensureKey g.productions h0) h0 b0).lookup v).isSome = true
      rw [appendBody_lookup_isSome]
      exact ensureKey_lookup_isSome_mono _ _ _ (hInv v hv')
    · rw [if_neg hval] at hv ⊢
      exact hInv v hv
  | setStart s0 =>
    intro v hv
    simp only [applyOp, CFG.set_start_symbol] at hv ⊢
    by_cases hval : (CFG.validate_variable s0 && g.vars.contains s0) = true
    · rw [if_pos hval] at hv ⊢
      exact hInv v hv
    · rw [if_neg hval] at hv ⊢
      exact hInv v hv

/-- Helper for C10: folding any call sequence preserves the invariant. -/
theorem invPK_foldl (ops : List GOp) :
    ∀ g : CFG, InvPK g → InvPK (ops.foldl applyOp g) := by
  induction ops with
  | nil => intro g h; exact h
  | cons op rest ih => intro g h; exact ih _ (invPK_applyOp g op h)

/-- C10: after any sequence of mutator calls on a fresh model — accepted or
rejected — every symbol in the variable set is a key of the production map
(`add_variable` installs an empty production list for a new variable and no
mutator ever removes a key), so looking up productions for a declared
variable never fails. -/
theorem c10_vars_have_productions_key (ops : List GOp) (v : String)
    (h : (runOps ops).vars.contains v = true) :
    ((runOps ops).productions.lookup v).isSome = true := by
  have hInv : InvPK (runOps ops) := by
    unfold runOps
    exact invPK_foldl ops CFG.init (by intro v hv; exact absurd hv (by simp [CFG.init, List.contains, List.elem]))
  exact hInv v h

/-- C10 witness: the invariant theorem applied to the one-call sequence
`add_variable('A')`. -/
theorem c10_witness : ((runOps [GOp.addVar "A"]).productions.lookup "A").isSome = true :=
  c10_vars_have_productions_key [GOp.addVar "A"] "A" (by decide)

/-- Helper for C5: a failed lookup means the key is absent. -/
theorem lookup_none_notin_keys (nm : List (String × String)) (sym : String)
    (h : nm.lookup sym = none) : sym ∉ nm.map Prod.fst := by
  induction nm with
  | nil => simp
  | cons kv rest ih =>
    obtain ⟨k0, v0⟩ := kv
    by_cases hk : (sym == k0) = true
    · simp [List.lookup, hk] at h
    · simp only [List.lookup, hk] at h
      simp only [List.map_cons, List.mem_cons, not_or]
      exact ⟨by simpa using hk, ih h⟩

/-- Helper for C5: `get_node_id` only appends to the node map and keeps node
symbols distinct (one node per symbol). -/
theorem getNodeId_state (st : List (String × String) × Nat) (sym : String)
    (h : (st.fst.map Prod.fst).Nodup) :
    ∃ t, (getNodeId st sym).snd.fst = st.fst ++ t ∧
      (((getNodeId st sym).snd.fst).map Prod.fst).Nodup := by
  obtain ⟨nm, cnt⟩ := st
  cases hl : List.lookup sym nm with
  | some id =>
    have hg : getNodeId (nm, cnt) sym = (id, (nm, cnt)) := by
      show (match List.lookup sym nm with
        | some i => (i, (nm, cnt))
        | none => (toString cnt, (nm ++ [(sym, toString cnt)], cnt + 1))) = (id, (nm, cnt))
      rw [hl]
    rw [hg]
    exact ⟨[], by simp, by simpa using h⟩
  | none =>
    have hg : getNodeId (nm, cnt) sym = (toString cnt, (nm ++ [(sym, toString cnt)], cnt + 1)) := by
      show (match List.lookup sym nm with
        | some i => (i, (nm, cnt))
        | none => (toString cnt, (nm ++ [(sym, toString cnt)], cnt + 1))) =
        (toString cnt, (nm ++ [(sym, toString cnt)], cnt + 1))
      rw [hl]
    rw [hg]
    refine ⟨[(sym, toString cnt)], by simp, ?_⟩
    have hnot : sym ∉ nm.map Prod.fst := lookup_none_notin_keys nm sym hl
    simp only [List.map_append, List.map_cons, List.map_nil]
    refine List.Nodup.append (by simpa using h) (List.nodup_singleton sym) ?_
    intro a ha hs
    exact hnot (List.mem_singleton.mp hs ▸ ha)

/-- Helper for C5: the edge loop of the tree builder only appends nodes and
keeps node symbols distinct. -/
theorem buildEdges_state (es : List (String × String)) :
    ∀ (st : List (String × String) × Nat), (st.fst.map Prod.fst).Nodup →
      ∃ t, (buildEdges st es).snd.fst = st.fst ++ t ∧
        (((buildEdges st es).snd.fst).map Prod.fst).Nodup := by
  induction es with
  | nil =>
    intro st h
    exact ⟨[], by simp [buildEdges], by simpa [buildEdges] using h⟩
  | cons e rest ih =>
    intro st h
    obtain ⟨p, c⟩ := e
    obtain ⟨t1, h1e, h1n⟩ := getNodeId_state st p h
    obtain ⟨t2, h2e, h2n⟩ := getNodeId_state (getNodeId st p).snd c h1n
    obtain ⟨t3, h3e, h3n⟩ := ih (getNodeId (getNodeId st p).snd c).snd h2n
    refine ⟨t1 ++ (t2 ++ t3), ?_, ?_⟩
    · show (buildEdges (getNodeId (getNodeId st p).snd c).snd rest).snd.fst =
        st.fst ++ (t1 ++ (t2 ++ t3))
      rw [h3e, h2e, h1e]
      simp [List.append_assoc]
    · show ((buildEdges (getNodeId (getNodeId st p).snd c).snd rest).snd.fst.map Prod.fst).Nodup
      exact h3n

/-- C5 (amended): the tree builder of `cfg_parser_base_.py` keys its Graphviz
nodes by symbol string — the built graph has exactly one node per distinct
symbol (so repeated symbol occurrences share a node, and the leaves need not
concatenate to the target), and its first-created node carries the start
symbol with id `"0"`. -/
theorem c5_tree_nodes_keyed_by_symbol (start : String) (edges : List (String × String)) :
    ((buildGraph start edges).nodes.map Prod.fst).Nodup ∧
      (buildGraph start edges).nodes.headD ("", "") = (start, "0") := by
  have h0 : getNodeId ([], 0) start = ("0", ([(start, "0")], 1)) := rfl
  obtain ⟨t, he, hn⟩ := buildEdges_state edges ([(start, "0")], 1) (by simp)
  constructor
  · show ((buildEdges (getNodeId ([], 0) start).snd edges).snd.fst.map Prod.fst).Nodup
    rw [h0]
    exact hn
  · show (buildEdges (getNodeId ([], 0) start).snd edges).snd.fst.headD ("", "") = (start, "0")
    rw [h0]
    have he' : (buildEdges ([(start, "0")], 1) edges).snd.fst = [(start, "0")] ++ t := he
    rw [he']
    rfl

/-- C5 counterexample: for the grammar `S -> a a` and target `"aa"`, the trace
succeeds and records the edges `(S, a), (S, a)`, but the tree builder collapses
both `a` children into one shared node: the drawn graph has two nodes and a
duplicated edge, and its leaves concatenate to `"a"`, not the target `"aa"`. -/
theorem c5_counterexample :
    CFG.get_derivation_steps_base exGrammarSaa "aa" Strategy.left 10 =
      some (some ["S", "a a", "a a"], [("S", "a"), ("S", "a")]) ∧
    generate_parse_tree_base exGrammarSaa [("S", "a"), ("S", "a")] =
      some ⟨[("S", "0"), ("a", "1")], [("0", "1"), ("0", "1")]⟩ ∧
    leavesConcat ⟨[("S", "0"), ("a", "1")], [("0", "1"), ("0", "1")]⟩ = "a" ∧
    "a" ≠ "aa" := by decide
